import Mathlib

/-!
# Verification of the image-generation gateway's execution pipeline

A shallow embedding of the repository's job execution pipeline:

* the Redis Lua limiter scripts (`src/services/limiter.lua.ts`):
  sliding-window RPM admission, concurrency admit/release, credential
  health with cooldown;
* the credential scheduler (`src/services/keypool.service.ts`);
* the result cache (`request-cache.service`);
* the Gemini provider driver's request builder and error classifier
  (`src/providers/gemini/client.ts`);
* the webhook deliverer and signature verifier (`webhook.service`);
* job creation with idempotency and the job read endpoint
  (`job.service` / `generate.controller`);
* the generate worker's admission/release discipline
  (`queue/workers/generate.worker`).

State kept in Redis or Postgres is modelled as explicit values threaded
through pure functions; machine arithmetic of the scripts is over `Int`
(Lua numbers on timestamp/counter magnitudes never overflow doubles).
Cryptographic digests from `node:crypto` (external to the repository)
are modelled as ideal, collision-free tagging functions.
-/

namespace Maliang

/-! ## Sorted-set model for the sliding-window script

A Redis sorted set is modelled as a list of member/score pairs with
distinct members; `ZADD` updates the score of an existing member and
otherwise appends, `ZCARD` is the length, and
`ZREMRANGEBYSCORE key 0 hi` drops exactly the entries whose score lies
in the closed interval `[0, hi]`. -/

/-- One entry of a Redis sorted set: a member string with its score. -/
structure ZEntry where
  member : String
  score : Int
  deriving DecidableEq, Repr

/-- A Redis sorted set (`ZSET`), as its underlying member/score list. -/
abbrev ZSet := List ZEntry

/-- `ZREMRANGEBYSCORE key 0 hi`: remove entries with score in `[0, hi]`. -/
def zremrangebyscore (s : ZSet) (hi : Int) : ZSet :=
  s.filter (fun e => ¬ (0 ≤ e.score ∧ e.score ≤ hi))

/-- `ZADD key score member`: update the member's score if present,
otherwise add the entry. -/
def zadd (s : ZSet) (score : Int) (member : String) : ZSet :=
  if s.any (fun e => e.member = member) then
    s.map (fun e => if e.member = member then ⟨member, score⟩ else e)
  else
    s ++ [⟨member, score⟩]

/-- Result of one run of the sliding-window script: the `{allowed, count}`
reply, the new sorted set, and the `PEXPIRE` applied to the key (`none`
when the deny branch leaves the key untouched). -/
structure SlidingWindowResult where
  allowed : Bool
  count : Int
  set : ZSet
  pexpire : Option Int
  deriving Repr

/-- `LUA_SLIDING_WINDOW` (`src/services/limiter.lua.ts`): remove entries
with score in `[0, now - window]`, deny without mutation when the
remaining count reaches the limit, otherwise add one member with score
`now` and set the key's TTL to `window + 1000` ms.  The random member
string chosen by the script is passed in as `member`. -/
def slidingWindowScript (s : ZSet) (now window limit : Int)
    (member : String) : SlidingWindowResult :=
  let s1 := zremrangebyscore s (now - window)
  let count : Int := s1.length
  if count ≥ limit then
    { allowed := false, count := count, set := s1, pexpire := none }
  else
    { allowed := true, count := count + 1,
      set := zadd s1 now member, pexpire := some (window + 1000) }

/-- `acquireRpm` (`src/services/limiter.service.ts`): runs the sliding
window script with `now = Date.now()`, `windowMs = windowSec * 1000`. -/
def acquireRpm (s : ZSet) (nowMs : Int) (limit : Int)
    (windowSec : Int := 60) (member : String := "") : SlidingWindowResult :=
  slidingWindowScript s nowMs (windowSec * 1000) limit member

/-! ### A trace of sliding-window admissions

`acquireRpm` is called repeatedly against one key with the key's fixed
limit and window; `Date.now()` is nondecreasing across calls and the
script's random member strings are fresh.  `admittedTimes` records the
timestamps of the calls the script admitted. -/

/-- Timestamps of the admitted calls when the ops `(time, member)` are
run in order against the sliding-window script. -/
def admittedTimes (limit window : Int) :
    List (Int × String) → ZSet → List Int
  | [], _ => []
  | (t, m) :: rest, s =>
    if (slidingWindowScript s t window limit m).allowed then
      t :: admittedTimes limit window rest (slidingWindowScript s t window limit m).set
    else
      admittedTimes limit window rest (slidingWindowScript s t window limit m).set

/-- `t` lies in the half-open window `(x, x + window]`. -/
def inWindow (x window t : Int) : Bool :=
  decide (x < t) && decide (t ≤ x + window)

/-- How many of the timestamps `l` lie in the window `(x, x + window]`. -/
def windowCount (x window : Int) (l : List Int) : Nat :=
  (l.filter (inWindow x window)).length

/-- How many entries of the sorted set have score in `(x, x + window]`. -/
def wEntries (x window : Int) (s : ZSet) : Nat :=
  (s.filter (fun e => inWindow x window e.score)).length

/-- The members of the set and of the pending ops are pairwise distinct:
the script's random member strings never collide. -/
def FreshMembers (s : ZSet) (ops : List (Int × String)) : Prop :=
  (s.map ZEntry.member ++ ops.map Prod.snd).Nodup

lemma slidingWindowScript_allowed (s : ZSet) (t w N : Int) (m : String) :
    (slidingWindowScript s t w N m).allowed = true ↔
      ((zremrangebyscore s (t - w)).length : Int) < N := by
  by_cases h : ((zremrangebyscore s (t - w)).length : Int) ≥ N
  · simp only [slidingWindowScript, if_pos h]
    constructor
    · intro hc; exact absurd hc (by simp)
    · intro hc; omega
  · simp only [slidingWindowScript, if_neg h]
    constructor
    · intro _; omega
    · intro _; trivial

lemma slidingWindowScript_set_denied (s : ZSet) (t w N : Int) (m : String)
    (h : ¬ ((zremrangebyscore s (t - w)).length : Int) < N) :
    (slidingWindowScript s t w N m).set = zremrangebyscore s (t - w) := by
  have h' : ((zremrangebyscore s (t - w)).length : Int) ≥ N := by omega
  simp [slidingWindowScript, h']

lemma slidingWindowScript_set_allowed (s : ZSet) (t w N : Int) (m : String)
    (h : ((zremrangebyscore s (t - w)).length : Int) < N) :
    (slidingWindowScript s t w N m).set = zadd (zremrangebyscore s (t - w)) t m := by
  have h' : ¬ ((zremrangebyscore s (t - w)).length : Int) ≥ N := by omega
  simp [slidingWindowScript, h']

/-- `ZADD` with a member not yet in the set appends one entry. -/
lemma zadd_fresh (s : ZSet) (score : Int) (m : String)
    (h : m ∉ s.map ZEntry.member) :
    zadd s score m = s ++ [⟨m, score⟩] := by
  have : s.any (fun e => e.member = m) = false := by
    rw [List.any_eq_false]
    intro e he
    simp only [decide_eq_true_eq]
    intro hm
    exact h (List.mem_map.mpr ⟨e, he, hm⟩)
  simp [zadd, this]

/-- Every admitted time is one of the ops' times. -/
lemma admittedTimes_subset_times (limit window : Int) :
    ∀ (ops : List (Int × String)) (s : ZSet) (u : Int),
      u ∈ admittedTimes limit window ops s → u ∈ ops.map Prod.fst := by
  intro ops
  induction ops with
  | nil => intro s u h; simp [admittedTimes] at h
  | cons p rest ih =>
    intro s u h
    obtain ⟨t, m⟩ := p
    simp only [List.map_cons, List.mem_cons]
    by_cases hall : (slidingWindowScript s t window limit m).allowed
    · simp only [admittedTimes, if_pos hall, List.mem_cons] at h
      rcases h with h | h
      · exact Or.inl h
      · exact Or.inr (ih _ u h)
    · simp only [admittedTimes, if_neg hall] at h
      exact Or.inr (ih _ u h)

/-- Removal with bound `t - window` keeps every entry whose score lies in
a window `(x, x + window]` with `t ≤ x + window`. -/
lemma wEntries_zrem_eq (x window t : Int) (s : ZSet) (ht : t ≤ x + window) :
    wEntries x window (zremrangebyscore s (t - window)) = wEntries x window s := by
  unfold wEntries zremrangebyscore
  rw [List.filter_filter]
  apply congrArg List.length
  apply List.filter_congr
  intro e _
  by_cases hw : inWindow x window e.score
  · have hx : x < e.score ∧ e.score ≤ x + window := by
      simpa [inWindow, Bool.and_eq_true, decide_eq_true_eq] using hw
    have hkeep : ¬ (0 ≤ e.score ∧ e.score ≤ t - window) := by omega
    simp [hw, hkeep]
  · simp [Bool.eq_false_iff.mpr hw]

lemma wEntries_append_one (x window : Int) (s : ZSet) (e : ZEntry) :
    wEntries x window (s ++ [e]) =
      wEntries x window s + (if inWindow x window e.score then 1 else 0) := by
  unfold wEntries
  rw [List.filter_append, List.length_append]
  by_cases h : inWindow x window e.score <;> simp [h]

lemma wEntries_le_length (x window : Int) (s : ZSet) :
    wEntries x window s ≤ s.length :=
  List.length_filter_le _ _

lemma freshMembers_head (s : ZSet) (t : Int) (m : String)
    (rest : List (Int × String)) (h : FreshMembers s ((t, m) :: rest)) :
    m ∉ s.map ZEntry.member := by
  unfold FreshMembers at h
  rw [List.nodup_append] at h
  intro hm
  exact h.2.2 hm (by simp)

lemma members_zrem_sublist (s : ZSet) (hi : Int) :
    List.Sublist ((zremrangebyscore s hi).map ZEntry.member)
      (s.map ZEntry.member) :=
  (List.filter_sublist s).map ZEntry.member

/-- Freshness is preserved by a step whose new set introduces at most the
consumed member `m`. -/
lemma freshMembers_step (s s' : ZSet) (t : Int) (m : String)
    (rest : List (Int × String)) (h : FreshMembers s ((t, m) :: rest))
    (hsub : List.Sublist (s'.map ZEntry.member)
      (s.map ZEntry.member ++ [m])) :
    FreshMembers s' rest := by
  unfold FreshMembers at *
  have hh : List.Sublist (s'.map ZEntry.member ++ rest.map Prod.snd)
      ((s.map ZEntry.member ++ [m]) ++ rest.map Prod.snd) :=
    hsub.append (List.Sublist.refl _)
  apply hh.nodup
  have heq : (s.map ZEntry.member ++ [m]) ++ rest.map Prod.snd
      = s.map ZEntry.member ++ ((t, m) :: rest).map Prod.snd := by
    simp
  rw [heq]
  exact h

/-- Core invariant of the sliding-window trace: for any window
`(x, x + window]`, the number of future admitted times in the window plus
the number of set entries already scoring in the window never exceeds
`max (entries already there) limit`. -/
lemma admitted_window_bound (limit window : Int) :
    ∀ (ops : List (Int × String)) (s : ZSet) (x : Int),
      List.Pairwise (fun a b : Int × String => a.1 ≤ b.1) ops →
      FreshMembers s ops →
      (windowCount x window (admittedTimes limit window ops s) : Int) +
          (wEntries x window s : Int) ≤
        max (wEntries x window s : Int) limit := by
  intro ops
  induction ops with
  | nil =>
    intro s x _ _
    have : windowCount x window (admittedTimes limit window [] s) = 0 := by
      simp [admittedTimes, windowCount]
    rw [this]
    simp
  | cons p rest ih =>
    rintro s x hsorted hfresh
    obtain ⟨t, m⟩ := p
    have hsorted' := (List.pairwise_cons.mp hsorted).2
    have hhead := (List.pairwise_cons.mp hsorted).1
    by_cases htw : t ≤ x + window
    · -- the op's time can still land in the window
      have hkeq : wEntries x window (zremrangebyscore s (t - window)) =
          wEntries x window s := wEntries_zrem_eq x window t s htw
      by_cases hadm : ((zremrangebyscore s (t - window)).length : Int) < limit
      · -- admitted branch
        have hallow : (slidingWindowScript s t window limit m).allowed = true :=
          (slidingWindowScript_allowed s t window limit m).mpr hadm
        have hmem : m ∉ (zremrangebyscore s (t - window)).map ZEntry.member :=
          fun hm => freshMembers_head s t m rest hfresh
            ((members_zrem_sublist s (t - window)).subset hm)
        have hset : (slidingWindowScript s t window limit m).set =
            zremrangebyscore s (t - window) ++ [⟨m, t⟩] := by
          rw [slidingWindowScript_set_allowed s t window limit m hadm]
          exact zadd_fresh _ t m hmem
        have hfresh' : FreshMembers
            (zremrangebyscore s (t - window) ++ [⟨m, t⟩]) rest := by
          apply freshMembers_step s _ t m rest hfresh
          rw [List.map_append]
          exact (members_zrem_sublist s (t - window)).append (List.Sublist.refl _)
        have hih := ih (zremrangebyscore s (t - window) ++ [⟨m, t⟩]) x hsorted' hfresh'
        have hsplit : admittedTimes limit window ((t, m) :: rest) s =
            t :: admittedTimes limit window rest
              (zremrangebyscore s (t - window) ++ [⟨m, t⟩]) := by
          simp only [admittedTimes, if_pos hallow, hset]
        have hcount : windowCount x window
              (admittedTimes limit window ((t, m) :: rest) s) =
            (if inWindow x window t then 1 else 0) +
              windowCount x window (admittedTimes limit window rest
                (zremrangebyscore s (t - window) ++ [⟨m, t⟩])) := by
          rw [hsplit]
          unfold windowCount
          by_cases hwt : inWindow x window t
          · simp [hwt]; omega
          · simp [hwt]
        have hw2 : wEntries x window
              (zremrangebyscore s (t - window) ++ [⟨m, t⟩]) =
            wEntries x window s + (if inWindow x window t then 1 else 0) := by
          rw [wEntries_append_one, hkeq]
        have hkle : (wEntries x window s : Int) < limit := by
          have h1 : wEntries x window s ≤ (zremrangebyscore s (t - window)).length := by
            rw [← hkeq]; exact wEntries_le_length _ _ _
          omega
        rw [hcount]
        rw [hw2] at hih
        have hgmax : max (wEntries x window s : Int) limit = limit :=
          max_eq_right (le_of_lt hkle)
        rw [hgmax]
        by_cases hwt : inWindow x window t
        · rw [if_pos hwt] at hih ⊢
          have hmax1 : max ((wEntries x window s + 1 : Nat) : Int) limit = limit := by
            apply max_eq_right
            push_cast
            omega
          rw [hmax1] at hih
          push_cast at hih ⊢
          omega
        · rw [if_neg hwt] at hih ⊢
          have hmax0 : max ((wEntries x window s + 0 : Nat) : Int) limit = limit := by
            apply max_eq_right
            push_cast
            omega
          rw [hmax0] at hih
          push_cast at hih ⊢
          omega
      · -- denied branch
        have hallow : ¬ (slidingWindowScript s t window limit m).allowed = true := by
          rw [slidingWindowScript_allowed s t window limit m]; exact hadm
        have hset : (slidingWindowScript s t window limit m).set =
            zremrangebyscore s (t - window) :=
          slidingWindowScript_set_denied s t window limit m hadm
        have hfresh' : FreshMembers (zremrangebyscore s (t - window)) rest := by
          apply freshMembers_step s _ t m rest hfresh
          exact (members_zrem_sublist s (t - window)).trans (List.sublist_append_left _ _)
        have hih := ih (zremrangebyscore s (t - window)) x hsorted' hfresh'
        have hsplit : admittedTimes limit window ((t, m) :: rest) s =
            admittedTimes limit window rest (zremrangebyscore s (t - window)) := by
          simp only [admittedTimes, if_neg hallow, hset]
        rw [hsplit]
        rw [hkeq] at hih
        exact hih
    · -- the op's time is beyond the window: nothing more lands in it
      have hnone : windowCount x window
          (admittedTimes limit window ((t, m) :: rest) s) = 0 := by
        unfold windowCount
        rw [List.length_eq_zero, List.filter_eq_nil_iff]
        intro u hu
        have humem := admittedTimes_subset_times limit window ((t, m) :: rest) s u hu
        simp only [List.map_cons, List.mem_cons] at humem
        have htu : t ≤ u := by
          rcases humem with h | h
          · omega
          · obtain ⟨q, hq, hq2⟩ := List.mem_map.mp h
            have := hhead q hq
            omega
        simp only [inWindow, Bool.and_eq_true, decide_eq_true_eq]
        rintro ⟨-, h2⟩
        omega
      rw [hnone]
      simp

/-! ## Concurrency limiter script -/

/-- Result of the concurrency-acquire script: the `{acquired, value}`
reply, the new counter, and whether `PEXPIRE` was issued (first
increment). -/
structure ConcAcquireResult where
  acquired : Bool
  value : Int
  counter : Int
  ttlSet : Bool
  deriving Repr

/-- `LUA_CONCURRENCY`: `INCR`; set TTL when the new value is 1; if the
value exceeds the limit, `DECR` back and deny with the observed value. -/
def concurrencyScript (counter limit : Int) : ConcAcquireResult :=
  let v := counter + 1
  let ttl := v = 1
  if v > limit then
    { acquired := false, value := v, counter := v - 1, ttlSet := ttl }
  else
    { acquired := true, value := v, counter := v, ttlSet := ttl }

/-- `LUA_CONCURRENCY_RELEASE`: `DECR`; if the result is negative, `SET`
the key to 0 and return 0.  Returns (reply, new counter). -/
def concurrencyReleaseScript (counter : Int) : Int × Int :=
  let v := counter - 1
  if v < 0 then (0, 0) else (v, v)

/-- One operation against a single concurrency key. -/
inductive ConcOp where
  | acquire
  | release
  deriving DecidableEq, Repr

/-- The counter after one acquire/release operation. -/
def concStep (limit : Int) (counter : Int) : ConcOp → Int
  | ConcOp.acquire => (concurrencyScript counter limit).counter
  | ConcOp.release => (concurrencyReleaseScript counter).2

/-- Run a sequence of acquire/release operations (every acquire with the
same configured limit) against a concurrency counter. -/
def runConcOps (limit : Int) (ops : List ConcOp) (counter : Int) : Int :=
  match ops with
  | [] => counter
  | op :: rest => runConcOps limit rest (concStep limit counter op)

section ConcSanity

example : (concurrencyScript 0 2).acquired = true := by decide

example : (concurrencyScript 2 2).acquired = false ∧
    (concurrencyScript 2 2).counter = 2 := by decide

example : concurrencyReleaseScript 0 = (0, 0) := by decide

example : runConcOps 2 [ConcOp.acquire, ConcOp.acquire, ConcOp.acquire] 0 = 2 := by
  decide

end ConcSanity

/-- One acquire or release keeps the counter within `[0, limit]`. -/
lemma concStep_bounds {limit counter : Int} (op : ConcOp)
    (h0 : 0 ≤ counter) (hN : counter ≤ limit) :
    0 ≤ concStep limit counter op ∧ concStep limit counter op ≤ limit := by
  cases op with
  | acquire =>
    by_cases h : counter + 1 > limit
    · simp [concStep, concurrencyScript, h]; omega
    · simp [concStep, concurrencyScript, h]; omega
  | release =>
    by_cases h : counter - 1 < 0
    · simp [concStep, concurrencyReleaseScript, h]; omega
    · simp [concStep, concurrencyReleaseScript, h]; omega

/-- The counter stays within `[0, limit]` under any operation sequence. -/
lemma runConcOps_bounds (limit : Int) (ops : List ConcOp) :
    ∀ counter : Int, 0 ≤ counter → counter ≤ limit →
      0 ≤ runConcOps limit ops counter ∧ runConcOps limit ops counter ≤ limit := by
  induction ops with
  | nil => intro c h0 hN; exact ⟨h0, hN⟩
  | cons op rest ih =>
    intro c h0 hN
    have hs := @concStep_bounds limit c op h0 hN
    exact ih _ hs.1 hs.2

/-! ## Credential health script and credential scheduler -/

/-- The two Redis keys of one credential's health:
`kp:{id}:cooldown_until` and `kp:{id}:failures` (0 when absent). -/
structure KeyHealthState where
  cooldownUntil : Int
  failures : Int
  deriving DecidableEq, Repr

/-- The `{available, cooldown_until}` reply of the health script. -/
structure KeyHealthReply where
  available : Bool
  cooldownUntil : Int
  deriving DecidableEq, Repr

/-- `LUA_KEY_HEALTH` (`src/services/limiter.lua.ts`): report an active
cooldown; on `increment_failures`, bump the counter and enter cooldown
when it reaches the threshold (deleting the counter); on
`reset_on_success`, delete the counter. -/
def luaKeyHealth (st : KeyHealthState) (now cooldownMs threshold : Int)
    (shouldInc shouldReset : Bool) : KeyHealthReply × KeyHealthState :=
  if st.cooldownUntil > now then
    ({ available := false, cooldownUntil := st.cooldownUntil }, st)
  else if shouldInc then
    if st.failures + 1 ≥ threshold then
      ({ available := false, cooldownUntil := now + cooldownMs },
        { cooldownUntil := now + cooldownMs, failures := 0 })
    else
      ({ available := true, cooldownUntil := 0 },
        { st with failures := st.failures + 1 })
  else if shouldReset then
    ({ available := true, cooldownUntil := 0 }, { st with failures := 0 })
  else
    ({ available := true, cooldownUntil := 0 }, st)

/-- Default cooldown of `checkKeyHealth` (10 minutes, in ms). -/
def defaultCooldownMs : Int := 10 * 60 * 1000

/-- Default consecutive-failure threshold of `checkKeyHealth`. -/
def defaultFailureThreshold : Int := 5

/-- `checkKeyHealth(keyId, { now })` (`src/services/limiter.service.ts`):
runs the health script with default options — no failure increment, no
success reset. -/
def checkKeyHealth (st : KeyHealthState) (now : Int) :
    KeyHealthReply × KeyHealthState :=
  luaKeyHealth st now defaultCooldownMs defaultFailureThreshold false false

/-- A `providerKey` database row. -/
structure ProviderKeyRow where
  id : String
  provider : String
  encryptedKey : String
  rpmLimit : Int
  concurrencyLimit : Int
  enabled : Bool
  deriving DecidableEq, Repr

/-- The credential descriptor returned by `pickProviderKey`. -/
structure PickedKey where
  id : String
  provider : String
  secret : String
  rpm : Int
  conc : Int
  deriving DecidableEq, Repr

/-- A scheduler candidate: the key plus its observed in-flight count. -/
structure KeyCandidate where
  key : PickedKey
  inFlight : Int
  deriving DecidableEq, Repr

/-- Insertion into a list sorted by ascending `inFlight`, passing over
only strictly smaller counts so that, under `foldr`, earlier candidates
stay in front of equal-`inFlight` ones — the stable-sort semantics of
`Array.prototype.sort` with comparator `a.inFlight - b.inFlight`. -/
def insertByInFlight (c : KeyCandidate) : List KeyCandidate → List KeyCandidate
  | [] => [c]
  | d :: ds =>
    if d.inFlight < c.inFlight then d :: insertByInFlight c ds
    else c :: d :: ds

/-- Stable sort of the candidates by ascending `inFlight`. -/
def sortByInFlight (l : List KeyCandidate) : List KeyCandidate :=
  l.foldr insertByInFlight []

/-- The filter-and-collect loop of `pickProviderKey` for one key row:
skip it when `checkKeyHealth` (with `{ now }`) reports unavailable or the
in-flight count has reached the key's concurrency limit. -/
def candidateOf (health : String → KeyHealthState) (inFlight : String → Int)
    (now : Int) (k : ProviderKeyRow) : Option KeyCandidate :=
  if (checkKeyHealth (health k.id) now).1.available = true then
    if inFlight k.id ≥ k.concurrencyLimit then none
    else some { key := { id := k.id, provider := k.provider,
                         secret := k.encryptedKey, rpm := k.rpmLimit,
                         conc := k.concurrencyLimit },
                inFlight := inFlight k.id }
  else none

/-- The candidate list collected by `pickProviderKey` over the enabled
rows of the provider. -/
def keypoolCandidates (keys : List ProviderKeyRow) (provider : String)
    (health : String → KeyHealthState) (inFlight : String → Int)
    (now : Int) : List KeyCandidate :=
  (keys.filter (fun k => k.provider = provider ∧ k.enabled = true)).filterMap
    (candidateOf health inFlight now)

/-- `pickProviderKey` (`src/services/keypool.service.ts`): fetch the
enabled rows of the provider, drop keys in cooldown (via `checkKeyHealth`
with `{ now }`) or at their concurrency limit, sort the survivors by least
in-flight, and return the first.  `health` and `inFlight` give the Redis
state per key id at call time. -/
def pickProviderKey (keys : List ProviderKeyRow) (provider : String)
    (health : String → KeyHealthState) (inFlight : String → Int)
    (now : Int) : Option PickedKey :=
  ((sortByInFlight (keypoolCandidates keys provider health inFlight now)).head?).map
    KeyCandidate.key

lemma mem_insertByInFlight {c d : KeyCandidate} {l : List KeyCandidate}
    (h : d ∈ insertByInFlight c l) : d = c ∨ d ∈ l := by
  induction l with
  | nil => simpa [insertByInFlight] using h
  | cons e es ih =>
    by_cases he : e.inFlight < c.inFlight
    · simp only [insertByInFlight, if_pos he, List.mem_cons] at h
      rcases h with h | h
      · exact Or.inr (by simp [h])
      · rcases ih h with h | h
        · exact Or.inl h
        · exact Or.inr (by simp [h])
    · simp only [insertByInFlight, if_neg he, List.mem_cons] at h
      rcases h with h | h | h
      · exact Or.inl h
      · exact Or.inr (by simp [h])
      · exact Or.inr (by simp [h])

lemma mem_sortByInFlight {d : KeyCandidate} {l : List KeyCandidate}
    (h : d ∈ sortByInFlight l) : d ∈ l := by
  induction l with
  | nil => simp [sortByInFlight] at h
  | cons e es ih =>
    simp only [sortByInFlight, List.foldr_cons] at h
    rcases mem_insertByInFlight h with h | h
    · simp [h]
    · exact List.mem_cons_of_mem _ (ih h)

/-- A collected candidate carries its row's id and that row passed the
health check, so its cooldown had expired. -/
lemma candidateOf_cooldown (health : String → KeyHealthState)
    (inFlight : String → Int) (now : Int) (k : ProviderKeyRow)
    (c : KeyCandidate) (h : candidateOf health inFlight now k = some c) :
    c.key.id = k.id ∧ (health k.id).cooldownUntil ≤ now := by
  by_cases havail : (checkKeyHealth (health k.id) now).1.available = true
  · rw [candidateOf, if_pos havail] at h
    by_cases hfl : inFlight k.id ≥ k.concurrencyLimit
    · rw [if_pos hfl] at h; exact absurd h (by simp)
    · rw [if_neg hfl] at h
      refine ⟨by rw [← Option.some.inj h], ?_⟩
      by_cases hcd : (health k.id).cooldownUntil > now
      · exfalso
        unfold checkKeyHealth luaKeyHealth at havail
        rw [if_pos hcd] at havail
        simp at havail
      · omega
  · rw [candidateOf, if_neg havail] at h
    exact absurd h (by simp)

/-- Any key the scheduler returns passed the health check: its cooldown
had expired at pick time. -/
lemma pickProviderKey_not_in_cooldown (keys : List ProviderKeyRow)
    (provider : String) (health : String → KeyHealthState)
    (inFlight : String → Int) (now : Int) (pk : PickedKey)
    (h : pickProviderKey keys provider health inFlight now = some pk) :
    (health pk.id).cooldownUntil ≤ now := by
  unfold pickProviderKey at h
  obtain ⟨c, hc1, hc2⟩ := Option.map_eq_some'.mp h
  have hmem : c ∈ keypoolCandidates keys provider health inFlight now :=
    mem_sortByInFlight (List.mem_of_mem_head? hc1)
  obtain ⟨k, _, hk2⟩ := List.mem_filterMap.mp hmem
  obtain ⟨hid, hcd⟩ := candidateOf_cooldown health inFlight now k c hk2
  rw [← hc2, hid]
  exact hcd

/-! ## Result cache (`request-cache.service`)

The Redis string store holding the serialized `CachedResult` entries is
an association list from key to entry.  The SHA-256 hex digest from
`node:crypto` (external to the repository) is modelled as an ideal,
collision-free digest: an injective tagging function. -/

/-- Stand-in for `crypto.createHash('sha256')...digest('hex')`: an
injective tag of the input, modelling an ideal collision-free digest. -/
def sha256Hex (s : String) : String :=
  "sha256(" ++ s ++ ")"

/-- `calculatePromptHash`: join the non-empty parts
`[prompt, model, resolution, aspectRatio, sampleCount]` with `":"` and
digest. -/
def calculatePromptHash (prompt : String)
    (model resolution aspectRatio : Option String)
    (sampleCount : Option Nat) : String :=
  sha256Hex (String.intercalate ":"
    (([prompt, model.getD "", resolution.getD "", aspectRatio.getD "",
       (sampleCount.map toString).getD ""]).filter (fun p => p ≠ "")))

/-- `generateCacheKey`: prefix the prompt hash with `rc:gemini:`. -/
def generateCacheKey (prompt : String)
    (model resolution aspectRatio : Option String)
    (sampleCount : Option Nat) : String :=
  "rc:gemini:" ++ calculatePromptHash prompt model resolution aspectRatio sampleCount

/-- Cache TTL: 24 hours in milliseconds. -/
def cacheTtlMs : Int := 24 * 60 * 60 * 1000

/-- A deserialized cache entry (`CachedResult`). -/
structure CachedResult where
  promptHash : String
  prompt : String
  images : List String
  status : String
  createdAt : Int
  cacheKey : String
  expiresAt : Int
  model : Option String
  resolution : Option String
  aspectRatio : Option String
  sampleCount : Option Nat
  deriving DecidableEq, Repr

/-- The Redis keyspace used by the cache. -/
abbrev CacheStore := List (String × CachedResult)

/-- `redis.set k v` (later reads see the newest write). -/
def storeSet (st : CacheStore) (k : String) (v : CachedResult) : CacheStore :=
  (k, v) :: st.filter (fun p => p.1 ≠ k)

/-- `redis.get k`. -/
def storeGet (st : CacheStore) (k : String) : Option CachedResult :=
  (st.find? (fun p => p.1 = k)).map Prod.snd

/-- `shouldUseCache`: the cache is bypassed in draft mode and for prompts
shorter than 10 characters. -/
def shouldUseCache (prompt : String) (mode : String) : Bool :=
  if mode = "draft" then false
  else if prompt.length < 10 then false
  else true

/-- `getCachedResult`: a missing key is a miss; an entry without images
degrades to a `FAILED` record. -/
def getCachedResult (st : CacheStore) (cacheKey : String) (now : Int) :
    Option CachedResult :=
  match storeGet st cacheKey with
  | none => none
  | some entry =>
    if entry.images.isEmpty then
      some { promptHash := "", prompt := "", images := [], status := "FAILED",
             createdAt := now, cacheKey := cacheKey, expiresAt := 0,
             model := none, resolution := none, aspectRatio := none,
             sampleCount := none }
    else some entry

/-- `cacheResult`: refuse an image-less entry, then store it — under the
key derived from `result.promptHash` and `result.model`. -/
def cacheResult (st : CacheStore) (now : Int) (result : CachedResult) :
    CacheStore :=
  if result.images.isEmpty then st
  else
    let key := generateCacheKey result.promptHash result.model
      result.resolution result.aspectRatio result.sampleCount
    storeSet st key
      { result with createdAt := now, cacheKey := key, expiresAt := now + cacheTtlMs }

/-- `saveToCache`: build the `CachedResult` (with the prompt's hash and
the key derived from the prompt with `model = undefined`) and hand it to
`cacheResult`. -/
def saveToCache (st : CacheStore) (now : Int) (prompt : String)
    (images : List String) (mode : String)
    (resolution aspectRatio : Option String) (sampleCount : Option Nat)
    (model : Option String) : CacheStore :=
  if ¬ shouldUseCache prompt mode then st
  else if images.isEmpty then st
  else
    cacheResult st now
      { promptHash := calculatePromptHash prompt model resolution aspectRatio sampleCount,
        prompt := prompt,
        images := images,
        status := "SUCCEEDED",
        createdAt := now,
        cacheKey := generateCacheKey prompt none resolution aspectRatio sampleCount,
        expiresAt := now + cacheTtlMs,
        model := model,
        resolution := resolution,
        aspectRatio := aspectRatio,
        sampleCount := sampleCount }

/-- `checkCache`: look up the key derived from the prompt (with
`model = undefined`); answer the stored images when the entry is a
non-expired `SUCCEEDED` entry with images. -/
def checkCache (st : CacheStore) (now : Int) (prompt : String)
    (mode : String) (resolution aspectRatio : Option String)
    (sampleCount : Option Nat) : Option (List String) :=
  if ¬ shouldUseCache prompt mode then none
  else
    match getCachedResult st
        (generateCacheKey prompt none resolution aspectRatio sampleCount) now with
    | none => none
    | some cached =>
      if cached.status = "SUCCEEDED" ∧ cached.images.length > 0 then
        if now > cached.expiresAt then none
        else some cached.images
      else none

/-! ## Gemini provider driver (`src/providers/gemini/client.ts`) -/

/-- The generation mode of a job. -/
inductive GeminiMode where
  | draft
  | final
  deriving DecidableEq, Repr

/-- The `generationConfig.imageConfig` object; a field is present only
when the caller provided the corresponding option. -/
structure ImageConfig where
  imageSize : Option String
  aspectRatio : Option String
  numberOfImages : Option Nat
  deriving DecidableEq, Repr

/-- The `generationConfig` object of the request body.  `temperature` is
kept as an explicit optional field so its presence can be stated. -/
structure RequestGenerationConfig where
  responseModalities : List String
  imageConfig : Option ImageConfig
  temperature : Option ℚ
  deriving DecidableEq, Repr

/-- One element of `contents[0].parts`. -/
inductive RequestPart where
  | text (s : String)
  | inlineData (mimeType data : String)
  deriving DecidableEq, Repr

/-- The provider request body: `contents[0].parts` plus
`generationConfig`. -/
structure GeminiRequest where
  parts : List RequestPart
  generationConfig : RequestGenerationConfig
  deriving DecidableEq, Repr

/-- `parseBase64Image`: split a `data:image/<type>;base64,<data>` URL
into mime type and payload (the regex match). -/
def parseBase64Image (dataUrl : String) : Option (String × String) :=
  if dataUrl.startsWith "data:image/" then
    match (dataUrl.drop 5).splitOn ";base64," with
    | [mime, data] => if data = "" then none else some (mime, data)
    | _ => none
  else none

/-- The face-lock instruction prefixed to the prompt when a reference
image is given. -/
def lockFacePrefix : String :=
  "Please reference the facial features from the following character images and generate an image that matches the requirements. Maintain consistent facial characteristics, face shape, and key features.\n\n"

/-- `buildGeminiRequest`: build `generationConfig` (response modalities
`TEXT`/`IMAGE`, optional `imageConfig` from the provided options) and the
parts list (prompt text, optional inline reference image, and the prompt
duplicated for each extra sample).  The `mode` parameter is accepted but
unused, exactly as in the source. -/
def buildGeminiRequest (prompt : String) (inputImage : Option String)
    (_mode : GeminiMode) (resolution : Option String)
    (aspectRatio : Option String) (sampleCount : Option Nat) :
    GeminiRequest :=
  let generationConfig : RequestGenerationConfig :=
    { responseModalities := ["TEXT", "IMAGE"],
      imageConfig :=
        if resolution.isSome ∨ aspectRatio.isSome ∨ (sampleCount.getD 0) ≠ 0 then
          some { imageSize := resolution,
                 aspectRatio := aspectRatio,
                 numberOfImages :=
                   if (sampleCount.getD 0) > 1 then sampleCount else none }
        else none,
      temperature := none }
  let finalPrompt :=
    match inputImage with
    | some _ => lockFacePrefix ++ prompt
    | none => prompt
  let imageParts :=
    match inputImage with
    | some img =>
      match parseBase64Image img with
      | some (mime, data) => [RequestPart.inlineData mime data]
      | none => []
    | none => []
  let extraTexts :=
    if (sampleCount.getD 0) > 1 then
      List.replicate ((sampleCount.getD 0) - 1) (RequestPart.text finalPrompt)
    else []
  { parts := [RequestPart.text finalPrompt] ++ imageParts ++ extraTexts,
    generationConfig := generationConfig }

/-- `handleGeminiError`: map an HTTP status to the thrown
`ProviderError`'s `(code, retryable)`.  The handler is reached only for
non-2xx responses (`!response.ok`). -/
def handleGeminiError (status : Nat) : String × Bool :=
  if status = 400 then ("INVALID_REQUEST", false)
  else if status = 401 then ("INVALID_API_KEY", false)
  else if status = 429 then ("RATE_LIMIT_EXCEEDED", true)
  else if status = 503 then ("SERVICE_OVERLOAD", true)
  else if status ≥ 500 then ("SERVER_ERROR", true)
  else ("GEMINI_ERROR", true)

/-! ## Webhook deliverer (`webhook.service`)

`JSON.stringify` of the payload object is embedded as an explicit
serializer (fields in declaration order, `undefined` fields omitted,
`null` kept).  The HMAC-SHA256 hex digest from `node:crypto` (external to
the repository) is modelled as an ideal MAC: an injective tagging
function of (payload, secret). -/

/-- The `error` object of a webhook payload. -/
structure WebhookError where
  code : String
  message : String
  deriving DecidableEq, Repr

/-- The webhook event payload.  `resultUrls` may be absent;
`error` may be absent (`none`), `null` (`some none`), or an object. -/
structure WebhookPayload where
  eventId : String
  jobId : String
  tenantId : String
  status : String
  resultUrls : Option (List String)
  error : Option (Option WebhookError)
  timestamp : Int
  deriving DecidableEq, Repr

/-- Stand-in for `crypto.createHmac('sha256', secret)...digest('hex')`:
an injective tag of payload and secret, modelling an ideal MAC. -/
def hmacSha256Hex (payload secret : String) : String :=
  "hmac-sha256(" ++ secret ++ "," ++ payload ++ ")"

/-- JSON escaping of one character (the escapes `JSON.stringify` uses on
the payload's string fields). -/
def jsonEscapeChar (c : Char) : String :=
  if c = '\\' then "\\\\"
  else if c = '"' then "\\\""
  else if c = '\n' then "\\n"
  else if c = '\r' then "\\r"
  else if c = '\t' then "\\t"
  else String.singleton c

/-- A JSON string literal. -/
def jsonString (s : String) : String :=
  "\"" ++ String.join (s.data.map jsonEscapeChar) ++ "\""

/-- `JSON.stringify(payload)`: the verbatim body the deliverer signs and
posts. -/
def serializeWebhookPayload (p : WebhookPayload) : String :=
  "\x7b\"eventId\":" ++ jsonString p.eventId ++
  ",\"jobId\":" ++ jsonString p.jobId ++
  ",\"tenantId\":" ++ jsonString p.tenantId ++
  ",\"status\":" ++ jsonString p.status ++
  (match p.resultUrls with
    | none => ""
    | some urls =>
      ",\"resultUrls\":[" ++ String.intercalate "," (urls.map jsonString) ++ "]") ++
  (match p.error with
    | none => ""
    | some none => ",\"error\":null"
    | some (some e) =>
      ",\"error\":\x7b\"code\":" ++ jsonString e.code ++
        ",\"message\":" ++ jsonString e.message ++ "\x7d") ++
  ",\"timestamp\":" ++ toString p.timestamp ++ "\x7d"

/-- The HTTP POST built by `sendWebhook`. -/
structure WebhookHttpRequest where
  body : String
  contentType : String
  xSignature : String
  userAgent : String
  deriving DecidableEq, Repr

/-- `sendWebhook`: serialize the payload, sign the verbatim body with the
tenant secret, and POST it as JSON. -/
def sendWebhook (payload : WebhookPayload) (secret : String) :
    WebhookHttpRequest :=
  { body := serializeWebhookPayload payload,
    contentType := "application/json",
    xSignature := "sha256=" ++ hmacSha256Hex (serializeWebhookPayload payload) secret,
    userAgent := "ImageSaaS-Webhook/1.0" }

/-- The `result |= a[i] ^ b[i]` accumulation of the constant-time loop:
true when some aligned pair differs. -/
def ctFoldDiff (a b : List Char) : Bool :=
  (a.zip b).foldl (fun acc pq => acc || decide (pq.1 ≠ pq.2)) false

/-- `verifyWebhookSignature`: recompute the expected signature, compare
lengths, then compare contents in constant time. -/
def verifyWebhookSignature (rawBody signature secret : String) : Bool :=
  if signature.length ≠ ("sha256=" ++ hmacSha256Hex rawBody secret).length then
    false
  else
    ! ctFoldDiff signature.data ("sha256=" ++ hmacSha256Hex rawBody secret).data

lemma foldl_or_any {α : Type} (f : α → Bool) (l : List α) (init : Bool) :
    l.foldl (fun acc x => acc || f x) init = (init || l.any f) := by
  induction l generalizing init with
  | nil => simp
  | cons x xs ih => simp [List.foldl_cons, ih, Bool.or_assoc]

lemma ctFoldDiff_eq_any (a b : List Char) :
    ctFoldDiff a b = (a.zip b).any (fun pq => decide (pq.1 ≠ pq.2)) := by
  unfold ctFoldDiff
  rw [foldl_or_any]
  simp

lemma zip_self_no_diff : ∀ l : List Char,
    (l.zip l).any (fun pq => decide (pq.1 ≠ pq.2)) = false := by
  intro l
  induction l with
  | nil => rfl
  | cons x xs ih => simpa using ih

lemma eq_of_zip_no_diff : ∀ (a b : List Char), a.length = b.length →
    (∀ pq ∈ a.zip b, pq.1 = pq.2) → a = b := by
  intro a
  induction a with
  | nil =>
    intro b hlen _
    cases b with
    | nil => rfl
    | cons y ys => simp at hlen
  | cons x xs ih =>
    intro b hlen hall
    cases b with
    | nil => simp at hlen
    | cons y ys =>
      have hx : x = y := hall (x, y) (by simp)
      have hxs : xs = ys := by
        apply ih ys (by simpa using hlen)
        intro pq hpq
        exact hall pq (by simp [hpq])
      rw [hx, hxs]

/-- The constant-time comparison decides string equality with the
expected signature. -/
lemma verifyWebhookSignature_iff (rawBody signature secret : String) :
    verifyWebhookSignature rawBody signature secret = true ↔
      signature = "sha256=" ++ hmacSha256Hex rawBody secret := by
  unfold verifyWebhookSignature
  by_cases hlen : signature.length = ("sha256=" ++ hmacSha256Hex rawBody secret).length
  · rw [if_neg (by omega)]
    rw [ctFoldDiff_eq_any]
    constructor
    · intro h
      have hnone : ∀ pq ∈ signature.data.zip ("sha256=" ++ hmacSha256Hex rawBody secret).data,
          pq.1 = pq.2 := by
        intro pq hpq
        by_contra hne
        have : (signature.data.zip ("sha256=" ++ hmacSha256Hex rawBody secret).data).any
            (fun pq => decide (pq.1 ≠ pq.2)) = true :=
          List.any_eq_true.mpr ⟨pq, hpq, by simpa using hne⟩
        rw [this] at h
        simp at h
      have hdata : signature.data = ("sha256=" ++ hmacSha256Hex rawBody secret).data :=
        eq_of_zip_no_diff _ _ hlen hnone
      cases signature
      exact congrArg String.mk hdata
    · intro h
      subst h
      rw [zip_self_no_diff]
      rfl
  · rw [if_pos (by omega)]
    constructor
    · intro h; simp at h
    · intro h
      rw [h] at hlen
      exact absurd rfl hlen

/-- For a fixed secret the modelled MAC is injective in the payload. -/
lemma hmacSha256Hex_inj (secret a b : String)
    (h : hmacSha256Hex a secret = hmacSha256Hex b secret) : a = b := by
  unfold hmacSha256Hex at h
  have hd := congrArg String.data h
  simp only [String.data_append, List.append_assoc] at hd
  have h1 := List.append_cancel_left hd
  have h2 := List.append_cancel_left h1
  have h3 := List.append_cancel_left h2
  have h4 := List.append_cancel_right h3
  cases a
  cases b
  exact congrArg String.mk h4

/-! ## Job rows, creation with idempotency, and the read endpoint -/

/-- A `job` database row (the fields the pipeline touches). -/
structure JobRow where
  id : String
  tenantId : String
  idempotencyKey : Option String
  prompt : String
  inputImage : Option String
  mode : String
  status : String
  attempts : Int
  maxAttempts : Int
  resolution : Option String
  aspectRatio : Option String
  sampleCount : Option Nat
  resultUrls : Option (List String)
  errorCode : Option String
  errorMessage : Option String
  deriving DecidableEq, Repr

/-- The options of `createJob` (`job.service`), after the caller-side
defaults (`mode = 'final'`, `maxAttempts = 4`) are applied. -/
structure CreateJobOptions where
  tenantId : String
  idempotencyKey : Option String
  prompt : String
  inputImage : Option String
  mode : String
  resolution : Option String
  aspectRatio : Option String
  sampleCount : Option Nat
  maxAttempts : Int
  deriving DecidableEq, Repr

/-- `prisma.job.findUnique` on the compound unique
`(tenantId, idempotencyKey)`. -/
def findUniqueByIdem (db : List JobRow) (tenantId k : String) : Option JobRow :=
  db.find? (fun j => j.tenantId = tenantId ∧ j.idempotencyKey = some k)

/-- The row `prisma.job.create` inserts for the given options. -/
def newJobRow (newId : String) (o : CreateJobOptions) : JobRow :=
  { id := newId, tenantId := o.tenantId, idempotencyKey := o.idempotencyKey,
    prompt := o.prompt, inputImage := o.inputImage, mode := o.mode,
    status := "QUEUED", attempts := 0, maxAttempts := o.maxAttempts,
    resolution := o.resolution, aspectRatio := o.aspectRatio,
    sampleCount := o.sampleCount, resultUrls := none,
    errorCode := none, errorMessage := none }

/-- `createJob`: when an idempotency key is given and a row with the same
`(tenant, key)` exists, return it unchanged; otherwise insert a fresh
`QUEUED` row. -/
def createJob (db : List JobRow) (newId : String) (o : CreateJobOptions) :
    JobRow × List JobRow :=
  match o.idempotencyKey with
  | some k =>
    match findUniqueByIdem db o.tenantId k with
    | some existing => (existing, db)
    | none => (newJobRow newId o, db ++ [newJobRow newId o])
  | none => (newJobRow newId o, db ++ [newJobRow newId o])

/-- `(tenant, idempotency_token)` maps to at most one job row. -/
def IdemUnique (db : List JobRow) : Prop :=
  ∀ j1 ∈ db, ∀ j2 ∈ db, j1.tenantId = j2.tenantId →
    j1.idempotencyKey = j2.idempotencyKey → j1.idempotencyKey ≠ none → j1 = j2

/-- The `error` field of the job read endpoint's response. -/
structure JobApiError where
  code : Option String
  message : Option String
  deriving DecidableEq, Repr

/-- The body of `GET /v1/jobs/:jobId` for a found row. -/
structure JobStatusResponse where
  jobId : String
  status : String
  resultUrls : List String
  error : Option JobApiError
  deriving DecidableEq, Repr

/-- `getJob` (`generate.controller`): expose the stored URLs only for a
`SUCCEEDED` row and the error object only for a `FAILED` row. -/
def getJobResponse (j : JobRow) : JobStatusResponse :=
  { jobId := j.id,
    status := j.status,
    resultUrls := if j.status = "SUCCEEDED" then j.resultUrls.getD [] else [],
    error := if j.status = "FAILED" then
        some { code := j.errorCode, message := j.errorMessage }
      else none }

/-! ## The generate worker's token discipline
(`queue/workers/generate.worker`)

The concurrency-token acquisitions and releases of one worker run are
recorded as an event trace.  The run's branching is driven by the
admission outcomes and by whether a provider key was picked; cache and
provider outcomes do not touch tokens, so they do not appear. -/

/-- The three concurrency-token scopes of the admission pipeline. -/
inductive TokenScope where
  | globalConc
  | credentialConc
  | tenantConc
  deriving DecidableEq, Repr

/-- A token acquisition or release. -/
inductive TokenEvent where
  | acquired (scope : TokenScope)
  | released (scope : TokenScope)
  deriving DecidableEq, Repr

/-- The outcomes that steer one worker run's token flow. -/
structure WorkerScenario where
  jobFound : Bool
  canceled : Bool
  globalRpmOk : Bool
  globalConcOk : Bool
  keyPicked : Bool
  keyRpmOk : Bool
  keyConcOk : Bool
  tenantRpmOk : Bool
  tenantConcOk : Bool
  deriving DecidableEq, Repr

/-- Token events of one `generateWorker` run.  The global RPM and global
concurrency admissions happen before the `try`; a denial there throws
without reaching the `finally`.  Inside the `try`, `keyConcKey` is
assigned as soon as a key is picked; the `finally` then releases the
credential counter whenever `keyConcKey` is set, and the tenant and
global counters unconditionally, in that order. -/
def generateWorkerTrace (sc : WorkerScenario) : List TokenEvent :=
  if ¬ sc.jobFound then []
  else if sc.canceled then []
  else if ¬ sc.globalRpmOk then []
  else if ¬ sc.globalConcOk then []
  else
    [TokenEvent.acquired TokenScope.globalConc] ++
    (if ¬ sc.keyPicked then []
     else if ¬ sc.keyRpmOk then []
     else if ¬ sc.keyConcOk then []
     else
       [TokenEvent.acquired TokenScope.credentialConc] ++
       (if ¬ sc.tenantRpmOk then []
        else if ¬ sc.tenantConcOk then []
        else [TokenEvent.acquired TokenScope.tenantConc])) ++
    ((if sc.keyPicked then [TokenEvent.released TokenScope.credentialConc] else []) ++
     [TokenEvent.released TokenScope.tenantConc,
      TokenEvent.released TokenScope.globalConc])

/-- The scopes acquired in a trace, in order. -/
def acquiredScopes (tr : List TokenEvent) : List TokenScope :=
  tr.filterMap (fun e =>
    match e with
    | TokenEvent.acquired s => some s
    | TokenEvent.released _ => none)

/-- The scopes released in a trace, in order. -/
def releasedScopes (tr : List TokenEvent) : List TokenScope :=
  tr.filterMap (fun e =>
    match e with
    | TokenEvent.acquired _ => none
    | TokenEvent.released s => some s)

/-- The spec's release discipline: exactly the acquired tokens are
released, in reverse acquisition order. -/
def ExactReverseRelease (tr : List TokenEvent) : Prop :=
  releasedScopes tr = (acquiredScopes tr).reverse

/-! ## Concrete runs and inputs used by the claim theorems -/

/-- A worker run denied at the credential-RPM admission: the job exists,
is not canceled, both global admissions succeed, a key is picked, and
`acquireRpm` for the key denies (`KEY_RATE_LIMIT`). -/
def keyRpmDeniedRun : WorkerScenario :=
  { jobFound := true, canceled := false, globalRpmOk := true,
    globalConcOk := true, keyPicked := true, keyRpmOk := false,
    keyConcOk := false, tenantRpmOk := false, tenantConcOk := false }

/-- A fully admitted worker run. -/
def happyPathRun : WorkerScenario :=
  { jobFound := true, canceled := false, globalRpmOk := true,
    globalConcOk := true, keyPicked := true, keyRpmOk := true,
    keyConcOk := true, tenantRpmOk := true, tenantConcOk := true }

/-! ## Claim theorems -/

/-- C1: the claim says that on every exit path the concurrency tokens
released are exactly those admitted, in reverse of the acquisition order
Global → Credential → Tenant, and that a token never acquired on a path
is never released.  Evaluating the worker on the credential-RPM-denied
run shows the `finally` block releasing the credential and tenant
concurrency tokens although neither was admitted there; even on the fully
admitted run, the release order is Credential → Tenant → Global rather
than the reverse order Tenant → Credential → Global. -/
theorem C1_release_of_unacquired_tokens :
    generateWorkerTrace keyRpmDeniedRun =
      [TokenEvent.acquired TokenScope.globalConc,
       TokenEvent.released TokenScope.credentialConc,
       TokenEvent.released TokenScope.tenantConc,
       TokenEvent.released TokenScope.globalConc] ∧
    TokenScope.credentialConc ∈ releasedScopes (generateWorkerTrace keyRpmDeniedRun) ∧
    TokenScope.credentialConc ∉ acquiredScopes (generateWorkerTrace keyRpmDeniedRun) ∧
    TokenScope.tenantConc ∈ releasedScopes (generateWorkerTrace keyRpmDeniedRun) ∧
    TokenScope.tenantConc ∉ acquiredScopes (generateWorkerTrace keyRpmDeniedRun) ∧
    ¬ ExactReverseRelease (generateWorkerTrace keyRpmDeniedRun) ∧
    releasedScopes (generateWorkerTrace happyPathRun) =
      [TokenScope.credentialConc, TokenScope.tenantConc, TokenScope.globalConc] ∧
    ¬ ExactReverseRelease (generateWorkerTrace happyPathRun) := by
  unfold ExactReverseRelease
  decide

/-- C3: for one concurrency key with limit `N ≥ 0`, under any sequence of
admit/release script runs the counter stays within `[0, N]`; an admit
whose increment would exceed the limit decrements back and reports the
observed value with `admitted = false`; the TTL is set exactly on the
first increment; and a release from a non-positive counter clamps to 0
and returns 0. -/
theorem C3_concurrency_counter_invariant (limit : Int) (hN : 0 ≤ limit) :
    (∀ ops : List ConcOp,
        0 ≤ runConcOps limit ops 0 ∧ runConcOps limit ops 0 ≤ limit) ∧
    (∀ c : Int, c + 1 > limit →
        (concurrencyScript c limit).acquired = false ∧
        (concurrencyScript c limit).value = c + 1 ∧
        (concurrencyScript c limit).counter = c) ∧
    (∀ c : Int, c + 1 ≤ limit →
        (concurrencyScript c limit).acquired = true ∧
        (concurrencyScript c limit).value = c + 1 ∧
        (concurrencyScript c limit).counter = c + 1) ∧
    (∀ c : Int, (concurrencyScript c limit).ttlSet = true ↔ c = 0) ∧
    (∀ c : Int, c ≤ 0 → concurrencyReleaseScript c = (0, 0)) ∧
    (∀ c : Int, 0 < c → concurrencyReleaseScript c = (c - 1, c - 1)) := by
  refine ⟨fun ops => runConcOps_bounds limit ops 0 le_rfl hN, ?_, ?_, ?_, ?_, ?_⟩
  · intro c h
    simp [concurrencyScript, h]
  · intro c h
    have h' : ¬ c + 1 > limit := by omega
    simp [concurrencyScript, h']
  · intro c
    by_cases h : c + 1 > limit
    · simp [concurrencyScript, h]
    · simp [concurrencyScript, h]
  · intro c h
    have h' : c - 1 < 0 := by omega
    simp [concurrencyReleaseScript, h']
  · intro c h
    have h' : ¬ c - 1 < 0 := by omega
    simp [concurrencyReleaseScript, h']

/-- C3 witness: at limit 2 the theorem's parts applied at concrete
counters: three acquires from 0 leave the counter at 2; an acquire at
counter 2 is denied with observed value 3; a release at 0 returns 0. -/
theorem C3_concurrency_witness :
    ((concurrencyScript 2 2).acquired = false ∧
      (concurrencyScript 2 2).value = 3 ∧
      (concurrencyScript 2 2).counter = 2) ∧
    (concurrencyReleaseScript 0 = (0, 0)) ∧
    (0 ≤ runConcOps 2 [ConcOp.acquire, ConcOp.acquire, ConcOp.acquire] 0 ∧
      runConcOps 2 [ConcOp.acquire, ConcOp.acquire, ConcOp.acquire] 0 ≤ 2) :=
  ⟨by
      have h := (C3_concurrency_counter_invariant 2 (by decide)).2.1 2 (by decide)
      exact ⟨h.1, by simpa using h.2.1, by simpa using h.2.2⟩,
    (C3_concurrency_counter_invariant 2 (by decide)).2.2.2.2.1 0 (by decide),
    (C3_concurrency_counter_invariant 2 (by decide)).1
      [ConcOp.acquire, ConcOp.acquire, ConcOp.acquire]⟩

/-- C6 counterexample: the claim says every request body has
`generationConfig.temperature = 0.7` in draft mode; the built draft
request carries no temperature at all. -/
theorem C6_draft_temperature_missing :
    ¬ ((buildGeminiRequest "a red apple" none GeminiMode.draft none none
        none).generationConfig.temperature = some ((7 : ℚ) / 10)) := by
  intro h
  exact Option.noConfusion h

/-- C6 (amended): `buildGeminiRequest` never sets
`generationConfig.temperature` — in draft mode as in final mode the field
is absent; `responseModalities` is always `["TEXT", "IMAGE"]`. -/
theorem C6_no_temperature_in_request (prompt : String)
    (inputImage : Option String) (mode : GeminiMode)
    (resolution aspectRatio : Option String) (sampleCount : Option Nat) :
    (buildGeminiRequest prompt inputImage mode resolution aspectRatio
      sampleCount).generationConfig.temperature = none ∧
    (buildGeminiRequest prompt inputImage mode resolution aspectRatio
      sampleCount).generationConfig.responseModalities = ["TEXT", "IMAGE"] :=
  ⟨rfl, rfl⟩

/-- C7: `handleGeminiError` classifies every non-2xx status exactly as
the table says: 400 and 401 are non-retryable `INVALID_REQUEST` /
`INVALID_API_KEY`; 429 and 503 are retryable `RATE_LIMIT_EXCEEDED` /
`SERVICE_OVERLOAD`; any other status ≥ 500 is retryable `SERVER_ERROR`;
every remaining non-2xx status is retryable `GEMINI_ERROR`. -/
theorem C7_error_classification :
    handleGeminiError 400 = ("INVALID_REQUEST", false) ∧
    handleGeminiError 401 = ("INVALID_API_KEY", false) ∧
    handleGeminiError 429 = ("RATE_LIMIT_EXCEEDED", true) ∧
    handleGeminiError 503 = ("SERVICE_OVERLOAD", true) ∧
    (∀ s : Nat, 500 ≤ s → s ≠ 503 →
        handleGeminiError s = ("SERVER_ERROR", true)) ∧
    (∀ s : Nat, ¬ (200 ≤ s ∧ s < 300) → s ≠ 400 → s ≠ 401 → s ≠ 429 →
        s < 500 → handleGeminiError s = ("GEMINI_ERROR", true)) := by
  refine ⟨by decide, by decide, by decide, by decide, ?_, ?_⟩
  · intro s h1 h2
    have h400 : ¬ s = 400 := by omega
    have h401 : ¬ s = 401 := by omega
    have h429 : ¬ s = 429 := by omega
    rw [handleGeminiError, if_neg h400, if_neg h401, if_neg h429, if_neg h2,
      if_pos h1]
  · intro s _ h400 h401 h429 h500
    have h503 : ¬ s = 503 := by omega
    have hge : ¬ 500 ≤ s := by omega
    rw [handleGeminiError, if_neg h400, if_neg h401, if_neg h429, if_neg h503,
      if_neg hge]

/-- C7 witness: the two guarded cases at concrete statuses — 502 is
`SERVER_ERROR` and 418 is `GEMINI_ERROR`, both retryable. -/
theorem C7_classification_witness :
    handleGeminiError 502 = ("SERVER_ERROR", true) ∧
    handleGeminiError 418 = ("GEMINI_ERROR", true) :=
  ⟨C7_error_classification.2.2.2.2.1 502 (by decide) (by decide),
    C7_error_classification.2.2.2.2.2 418 (by decide) (by decide) (by decide)
      (by decide) (by decide)⟩

/-- C2: one run of the sliding-window script first removes exactly the
entries scoring outside the window (score in `[0, t - W]`); when the
remaining count `c` has reached the limit it denies with count `c` and no
mutation; otherwise it adds exactly one member scored `t`, sets the TTL
to `W + 1000` ms, and admits with count `c + 1`.  Consequently, over any
trace of calls at nondecreasing times with fresh random members starting
from an empty key, at most `N` admissions succeed in any window
`(x, x + W]`. -/
theorem C2_sliding_window_admission (limit window : Int) :
    (∀ (s : ZSet) (hi : Int) (e : ZEntry),
        e ∈ zremrangebyscore s hi ↔ e ∈ s ∧ ¬ (0 ≤ e.score ∧ e.score ≤ hi)) ∧
    (∀ (s : ZSet) (now : Int) (m : String),
        ((zremrangebyscore s (now - window)).length : Int) ≥ limit →
        slidingWindowScript s now window limit m =
          { allowed := false,
            count := ((zremrangebyscore s (now - window)).length : Int),
            set := zremrangebyscore s (now - window), pexpire := none }) ∧
    (∀ (s : ZSet) (now : Int) (m : String),
        ((zremrangebyscore s (now - window)).length : Int) < limit →
        m ∉ (zremrangebyscore s (now - window)).map ZEntry.member →
        slidingWindowScript s now window limit m =
          { allowed := true,
            count := ((zremrangebyscore s (now - window)).length : Int) + 1,
            set := zremrangebyscore s (now - window) ++ [⟨m, now⟩],
            pexpire := some (window + 1000) }) ∧
    (∀ (ops : List (Int × String)) (x : Int), 0 ≤ limit →
        List.Pairwise (fun a b : Int × String => a.1 ≤ b.1) ops →
        FreshMembers [] ops →
        (windowCount x window (admittedTimes limit window ops []) : Int) ≤ limit) := by
  refine ⟨?_, ?_, ?_, ?_⟩
  · intro s hi e
    simp only [zremrangebyscore, List.mem_filter, decide_eq_true_eq]
  · intro s now m h
    simp [slidingWindowScript, h]
  · intro s now m h hm
    have h' : ¬ ((zremrangebyscore s (now - window)).length : Int) ≥ limit := by
      omega
    simp only [slidingWindowScript, if_neg h']
    rw [zadd_fresh _ now m hm]
  · intro ops x hlim hs hf
    have hb := admitted_window_bound limit window ops [] x hs hf
    have h0 : wEntries x window [] = 0 := rfl
    rw [h0] at hb
    have hmax : max ((0 : Nat) : Int) limit = limit := max_eq_right (by omega)
    rw [hmax] at hb
    omega

/-- C2 witness: with limit 1 and window 60000 ms an admit on the empty
key succeeds with count 1, the entry `("a", 5)` and TTL 61000 ms; and on
the trace of two calls at times 5 and 6 at most one admission lands in
the window `(0, 60000]`. -/
theorem C2_sliding_window_witness :
    slidingWindowScript [] 5 60000 1 "a" =
      { allowed := true, count := 1, set := [⟨"a", 5⟩],
        pexpire := some 61000 } ∧
    (windowCount 0 60000 (admittedTimes 1 60000 [(5, "a"), (6, "b")] []) : Int) ≤ 1 :=
  ⟨by
      have h := (C2_sliding_window_admission 1 60000).2.2.1 [] 5 "a"
        (by decide) (by decide)
      simpa using h,
    (C2_sliding_window_admission 1 60000).2.2.2 [(5, "a"), (6, "b")] 0
      (by decide) (by decide) (by unfold FreshMembers; decide)⟩

/-- C4: when the health script runs with `increment_failures` on a key
not in cooldown and the bumped counter reaches the threshold, it sets the
cooldown to `now + cooldown_ms`, deletes the failure counter, and replies
`available = false` with the new cooldown; `checkKeyHealth`'s defaults
are a threshold of 5 and a 10-minute cooldown; and while a key's stored
`cooldown_until` exceeds the clock, `pickProviderKey` never returns it:
every returned key's cooldown has expired. -/
theorem C4_cooldown_on_threshold :
    (∀ (st : KeyHealthState) (now cooldownMs threshold : Int),
        st.cooldownUntil ≤ now → st.failures + 1 ≥ threshold →
        luaKeyHealth st now cooldownMs threshold true false =
          ({ available := false, cooldownUntil := now + cooldownMs },
            { cooldownUntil := now + cooldownMs, failures := 0 })) ∧
    defaultFailureThreshold = 5 ∧
    defaultCooldownMs = 10 * 60 * 1000 ∧
    (∀ (keys : List ProviderKeyRow) (provider : String)
        (health : String → KeyHealthState) (inFlight : String → Int)
        (now : Int) (pk : PickedKey),
        (health pk.id).cooldownUntil > now →
        pickProviderKey keys provider health inFlight now ≠ some pk) := by
  refine ⟨?_, rfl, rfl, ?_⟩
  · intro st now cooldownMs threshold hcd hth
    have h1 : ¬ st.cooldownUntil > now := by omega
    simp only [luaKeyHealth, if_neg h1]
    rw [if_pos hth]
    simp
  · intro keys provider health inFlight now pk hcd hpick
    have := pickProviderKey_not_in_cooldown keys provider health inFlight now
      pk hpick
    omega

/-- C4 witness: a key with 4 stored failures and no cooldown, failing at
time 100 with threshold 5 and a 600000 ms cooldown, enters cooldown until
600100 with its counter deleted; and with that cooldown stored,
`pickProviderKey` at time 200 does not return the key. -/
theorem C4_cooldown_witness :
    luaKeyHealth { cooldownUntil := 0, failures := 4 } 100 600000 5 true false =
      ({ available := false, cooldownUntil := 600100 },
        { cooldownUntil := 600100, failures := 0 }) ∧
    pickProviderKey
      [{ id := "k1", provider := "gemini", encryptedKey := "sec",
         rpmLimit := 10, concurrencyLimit := 5, enabled := true }]
      "gemini" (fun _ => { cooldownUntil := 600100, failures := 0 })
      (fun _ => 0) 200 ≠
      some { id := "k1", provider := "gemini", secret := "sec",
             rpm := 10, conc := 5 } :=
  ⟨by
      have h := C4_cooldown_on_threshold.1 { cooldownUntil := 0, failures := 4 }
        100 600000 5 (by decide) (by decide)
      simpa using h,
    C4_cooldown_on_threshold.2.2.2
      [{ id := "k1", provider := "gemini", encryptedKey := "sec",
         rpmLimit := 10, concurrencyLimit := 5, enabled := true }]
      "gemini" (fun _ => { cooldownUntil := 600100, failures := 0 })
      (fun _ => 0) 200
      { id := "k1", provider := "gemini", secret := "sec", rpm := 10, conc := 5 }
      (by decide)⟩

/-- C5: the claim says a `checkCache` call right after `saveToCache`
stored a non-empty URL list for the same final-mode prompt and parameters
returns that list.  Evaluating the code: `saveToCache` hands the entry to
`cacheResult`, which re-derives the storage key from `result.promptHash`
and the model — not from the prompt — so the read key differs from the
write key and the lookup misses.  The second conjunct shows the read path
does succeed when an entry is stored under the prompt-derived key, so the
divergence is in the write path. -/
theorem C5_cache_write_key_mismatch :
    checkCache
      (saveToCache [] 0 "a beautiful sunset over the ocean"
        ["https://cdn.example.com/img-1.png"] "final" none none none
        (some "gemini-2.0-flash-exp"))
      1 "a beautiful sunset over the ocean" "final" none none none = none ∧
    checkCache
      (storeSet []
        (generateCacheKey "a beautiful sunset over the ocean" none none none none)
        { promptHash := "h", prompt := "a beautiful sunset over the ocean",
          images := ["https://cdn.example.com/img-1.png"],
          status := "SUCCEEDED", createdAt := 0, cacheKey := "",
          expiresAt := 86400000, model := none, resolution := none,
          aspectRatio := none, sampleCount := none })
      1 "a beautiful sunset over the ocean" "final" none none none =
      some ["https://cdn.example.com/img-1.png"] := by
  exact ⟨rfl, rfl⟩

lemma string_eq_of_data (a b : String) (h : a.data = b.data) : a = b := by
  cases a
  cases b
  exact congrArg String.mk h

/-- Verification against the signature of `body` fails for any other raw
body. -/
lemma verify_altered_false (body altered secret : String)
    (hne : altered ≠ body) :
    verifyWebhookSignature altered ("sha256=" ++ hmacSha256Hex body secret)
      secret = false := by
  cases h : verifyWebhookSignature altered
      ("sha256=" ++ hmacSha256Hex body secret) secret with
  | false => rfl
  | true =>
    exfalso
    have heq := (verifyWebhookSignature_iff altered _ secret).mp h
    have hd := congrArg String.data heq
    simp only [String.data_append] at hd
    have h4 := List.append_cancel_left hd
    have h5 : hmacSha256Hex body secret = hmacSha256Hex altered secret :=
      string_eq_of_data _ _ h4
    exact hne (hmacSha256Hex_inj secret body altered h5).symm

/-- An input for the webhook claim theorems. -/
def demoWebhookPayload : WebhookPayload :=
  { eventId := "evt-1", jobId := "job-1", tenantId := "t-1",
    status := "SUCCEEDED",
    resultUrls := some ["https://cdn.example.com/img-1.png"],
    error := none, timestamp := 1700000000000 }

/-- Inputs for the job-creation claim theorems. -/
def demoIdemOptions : CreateJobOptions :=
  { tenantId := "t1", idempotencyKey := some "K1", prompt := "a red apple",
    inputImage := none, mode := "final", resolution := none,
    aspectRatio := none, sampleCount := none, maxAttempts := 4 }

/-- A pre-existing row for `demoIdemOptions`'s `(tenant, key)` pair. -/
def demoExistingJob : JobRow :=
  { id := "j0", tenantId := "t1", idempotencyKey := some "K1",
    prompt := "a red apple", inputImage := none, mode := "final",
    status := "QUEUED", attempts := 0, maxAttempts := 4, resolution := none,
    aspectRatio := none, sampleCount := none, resultUrls := none,
    errorCode := none, errorMessage := none }

/-- A running row with progressively appended URLs and a stale error. -/
def demoRunningJob : JobRow :=
  { id := "j1", tenantId := "t1", idempotencyKey := none, prompt := "p",
    inputImage := none, mode := "final", status := "RUNNING", attempts := 1,
    maxAttempts := 4, resolution := none, aspectRatio := none,
    sampleCount := none, resultUrls := some ["https://cdn.example.com/u1.png"],
    errorCode := some "RATE_LIMIT_EXCEEDED", errorMessage := some "429" }

/-- The same row once succeeded. -/
def demoSucceededJob : JobRow :=
  { id := "j1", tenantId := "t1", idempotencyKey := none, prompt := "p",
    inputImage := none, mode := "final", status := "SUCCEEDED", attempts := 1,
    maxAttempts := 4, resolution := none, aspectRatio := none,
    sampleCount := none, resultUrls := some ["https://cdn.example.com/u1.png"],
    errorCode := none, errorMessage := none }

/-- C8: the deliverer posts the serialized payload verbatim with
`Content-Type: application/json` and `X-Signature` equal to `sha256=`
followed by the HMAC-SHA256 of that body under the tenant secret;
verification of that body against the signature succeeds, and
verification of any altered body fails. -/
theorem C8_webhook_signature_roundtrip (payload : WebhookPayload)
    (secret : String) :
    (sendWebhook payload secret).contentType = "application/json" ∧
    (sendWebhook payload secret).body = serializeWebhookPayload payload ∧
    (sendWebhook payload secret).xSignature =
      "sha256=" ++ hmacSha256Hex (sendWebhook payload secret).body secret ∧
    verifyWebhookSignature (sendWebhook payload secret).body
      (sendWebhook payload secret).xSignature secret = true ∧
    ∀ altered : String, altered ≠ (sendWebhook payload secret).body →
      verifyWebhookSignature altered (sendWebhook payload secret).xSignature
        secret = false := by
  refine ⟨rfl, rfl, rfl, ?_, ?_⟩
  · exact (verifyWebhookSignature_iff _ _ _).mpr rfl
  · intro altered hne
    exact verify_altered_false (serializeWebhookPayload payload) altered
      secret hne

/-- C8 witness: for a concrete payload and secret, verifying the body the
deliverer signed succeeds and verifying the body with one byte appended
fails. -/
theorem C8_webhook_signature_witness :
    verifyWebhookSignature (sendWebhook demoWebhookPayload "whsec-1").body
      (sendWebhook demoWebhookPayload "whsec-1").xSignature "whsec-1" = true ∧
    verifyWebhookSignature
      ((sendWebhook demoWebhookPayload "whsec-1").body ++ "x")
      (sendWebhook demoWebhookPayload "whsec-1").xSignature "whsec-1" = false :=
  ⟨(C8_webhook_signature_roundtrip demoWebhookPayload "whsec-1").2.2.2.1,
    (C8_webhook_signature_roundtrip demoWebhookPayload "whsec-1").2.2.2.2 _
      (by
        intro h
        have h2 := congrArg String.length h
        rw [String.length_append] at h2
        have hx : ("x" : String).length = 1 := rfl
        rw [hx] at h2
        omega)⟩

/-- Appending a row whose `(tenant, key)` pair (when the key is present)
matches no existing row preserves the at-most-one-job-per-pair
invariant. -/
lemma idemUnique_append (db : List JobRow) (j : JobRow) (hu : IdemUnique db)
    (hno : ∀ j' ∈ db, ¬ (j'.tenantId = j.tenantId ∧
      j'.idempotencyKey = j.idempotencyKey ∧ j.idempotencyKey ≠ none)) :
    IdemUnique (db ++ [j]) := by
  intro j1 h1 j2 h2 ht hk hnz
  rw [List.mem_append] at h1 h2
  rcases h1 with h1 | h1 <;> rcases h2 with h2 | h2
  · exact hu j1 h1 j2 h2 ht hk hnz
  · have hj2 : j2 = j := by simpa using h2
    subst hj2
    exact absurd ⟨ht, hk, hk ▸ hnz⟩ (hno j1 h1)
  · have hj1 : j1 = j := by simpa using h1
    subst hj1
    exact absurd ⟨ht.symm, hk.symm, hnz⟩ (hno j2 h2)
  · have hj1 : j1 = j := by simpa using h1
    have hj2 : j2 = j := by simpa using h2
    rw [hj1, hj2]

/-- C9: when a job with the submitting tenant's idempotency key already
exists, `createJob` returns that row and leaves the table unchanged — no
second row is created; and `createJob` preserves the invariant that each
`(tenant, idempotency_token)` pair maps to at most one job row. -/
theorem C9_idempotent_creation :
    (∀ (db : List JobRow) (newId : String) (o : CreateJobOptions)
        (k : String) (j0 : JobRow),
        o.idempotencyKey = some k →
        findUniqueByIdem db o.tenantId k = some j0 →
        createJob db newId o = (j0, db)) ∧
    (∀ (db : List JobRow) (newId : String) (o : CreateJobOptions),
        IdemUnique db → IdemUnique (createJob db newId o).2) := by
  constructor
  · intro db newId o k j0 hk hf
    simp [createJob, hk, hf]
  · intro db newId o hu
    cases hk : o.idempotencyKey with
    | none =>
      have hstep : createJob db newId o =
          (newJobRow newId o, db ++ [newJobRow newId o]) := by
        simp [createJob, hk]
      rw [hstep]
      apply idemUnique_append db _ hu
      intro j' _
      rintro ⟨-, -, hnz⟩
      exact hnz (by simp [newJobRow, hk])
    | some k =>
      cases hf : findUniqueByIdem db o.tenantId k with
      | some j0 =>
        have hstep : createJob db newId o = (j0, db) := by
          simp [createJob, hk, hf]
        rw [hstep]
        exact hu
      | none =>
        have hstep : createJob db newId o =
            (newJobRow newId o, db ++ [newJobRow newId o]) := by
          simp [createJob, hk, hf]
        rw [hstep]
        apply idemUnique_append db _ hu
        intro j' hj'
        rintro ⟨ht, hkey, -⟩
        have hnone := List.find?_eq_none.mp hf j' hj'
        apply hnone
        simp only [decide_eq_true_eq]
        refine ⟨by simpa [newJobRow] using ht, ?_⟩
        simpa [newJobRow, hk] using hkey

/-- C9 witness: resubmitting with the stored `(tenant, key)` pair returns
the existing row `j0` without adding a row, and the invariant holds on
the result. -/
theorem C9_idempotency_witness :
    createJob [demoExistingJob] "j-new" demoIdemOptions =
      (demoExistingJob, [demoExistingJob]) ∧
    IdemUnique (createJob [demoExistingJob] "j-new" demoIdemOptions).2 :=
  ⟨C9_idempotent_creation.1 [demoExistingJob] "j-new" demoIdemOptions "K1"
      demoExistingJob rfl (by decide),
    C9_idempotent_creation.2 [demoExistingJob] "j-new" demoIdemOptions
      (by unfold IdemUnique; decide)⟩

/-- C10: the job read endpoint returns the stored URLs only for a
`SUCCEEDED` row, an empty `resultUrls` for every other status, and a
non-null `error` exactly for a `FAILED` row. -/
theorem C10_job_read_projection (j : JobRow) :
    (j.status ≠ "SUCCEEDED" → (getJobResponse j).resultUrls = []) ∧
    (j.status = "SUCCEEDED" →
      (getJobResponse j).resultUrls = j.resultUrls.getD []) ∧
    ((getJobResponse j).error ≠ none ↔ j.status = "FAILED") := by
  refine ⟨?_, ?_, ?_⟩
  · intro h
    simp [getJobResponse, h]
  · intro h
    simp [getJobResponse, h]
  · by_cases h : j.status = "FAILED" <;> simp [getJobResponse, h]

/-- C10 witness: a `RUNNING` row with progressively appended URLs and a
stale error code reads back with empty `resultUrls`; the same row once
`SUCCEEDED` reads back with its stored URLs. -/
theorem C10_job_read_witness :
    (getJobResponse demoRunningJob).resultUrls = [] ∧
    (getJobResponse demoSucceededJob).resultUrls =
      ["https://cdn.example.com/u1.png"] :=
  ⟨(C10_job_read_projection demoRunningJob).1 (by decide),
    (C10_job_read_projection demoSucceededJob).2.1 rfl⟩

end Maliang
